import Mathlib

/-!
Shallow embedding of the move/rename/delete tree-mutation engine of the
repository (Supabase edge functions `move-files` and the directory branch of
the delete handler).  The remote GitHub content API is modelled as an explicit
state (`Env`): a map from path to stored blob, a response table for directory
listings, and a failure script that decides, per network call, whether the
upstream infrastructure fails the call (covering rate limits, outages, etc.).
Every network call the code issues is recorded in a trace together with the
`ok` status of its response, so temporal claims ("no delete before a confirmed
write") are statements about traces.

JavaScript string primitives used by the source (`slice`, `split` with `pop`,
`lastIndexOf`, `startsWith`, the leading-slash `replace`, `endsWith`) are
translated at the character-list level, which matches their behaviour on the
ASCII repository paths involved.
-/

/-- A blob stored by the remote content API: its content and content id. -/
structure GhFile where
  content : String
  sha : String
deriving Repr, DecidableEq

/-- The remote store: association of path to stored blob. -/
abbrev Fs := List (String × GhFile)

def lookupFs : Fs → String → Option GhFile
  | [], _ => none
  | (q, f) :: rest, p => if q = p then some f else lookupFs rest p

def eraseFs : Fs → String → Fs
  | [], _ => []
  | (q, f) :: rest, p => if q = p then eraseFs rest p else (q, f) :: eraseFs rest p

def insertFs (fs : Fs) (p : String) (f : GhFile) : Fs :=
  (p, f) :: eraseFs fs p

/-- Content-addressed blob id assigned by the remote host on a write. -/
def blobSha (content : String) : String := "blob-" ++ content

/-- One item of a directory-contents listing response. -/
structure LsItem where
  path : String
  sha : String
  type : String
deriving Repr, DecidableEq

/-- One entry of a recursive git tree listing (delete handler). -/
structure TreeItem where
  path : String
  mode : String
  type : String
  sha : String
deriving Repr, DecidableEq

/-- The upstream world a run executes against.  `fails` is the infrastructure
failure script: call number `k` fails when `fails.getD k false` is true. -/
structure Env where
  fs : Fs
  listings : List (String × List LsItem)
  fails : List Bool
  k : Nat
deriving Repr, DecidableEq

def lookupListing : List (String × List LsItem) → String → Option (List LsItem)
  | [], _ => none
  | (q, l) :: rest, p => if q = p then some l else lookupListing rest p

/-- The network calls the move-files and delete handlers can issue. -/
inductive Call where
  | getContents (path : String)
  | listContents (path : String)
  | putContents (path content : String) (sha : Option String)
  | deleteContents (path sha : String)
  | getRef (branch : String)
  | getCommit (sha : String)
  | getTree (sha : String)
  | postTree (entries : List TreeItem)
  | postCommit (treeSha parentSha : String)
  | patchRef (branch sha : String)
deriving Repr, DecidableEq

/-- Result of `moveSingleFile`: the source returns status strings
`skipped` / `moved`, and throws an `Error` on any failed step (modelled as
`failed` with the thrown message). -/
inductive MoveStatus where
  | moved
  | skipped
  | failed (msg : String)
deriving Repr, DecidableEq

/-- Final stage of `moveSingleFile` (move-files/index.ts, lines 167-188): the
DELETE of the source, issued only after a confirmed successful write.  The
DELETE succeeds when the infrastructure does not fail it and the supplied
`srcSha` matches the currently stored blob (the remote host rejects a
stale-sha delete). -/
def deleteStep (srcPath srcSha : String) (trHead : List (Call × Bool)) (env4 : Env) :
    MoveStatus × Env × List (Call × Bool) :=
  let fail4 := env4.fails.getD env4.k false
  let env5 : Env := { env4 with k := env4.k + 1 }
  let delOk := !fail4 &&
    (match lookupFs env5.fs srcPath with
     | some f => f.sha == srcSha
     | none => false)
  if delOk = false then
    (.failed "delete source failed", env5,
      trHead ++ [((Call.deleteContents srcPath srcSha : Call), false)])
  else
    (.moved, { env5 with fs := eraseFs env5.fs srcPath },
      trHead ++ [((Call.deleteContents srcPath srcSha : Call), true)])

/-- Write stage of `moveSingleFile` (move-files/index.ts, lines 139-165): PUT
the source content at the destination, passing the probed sha when the probe
succeeded; on a non-ok response throw (fail the item), otherwise proceed to
the delete stage.  The PUT succeeds when the infrastructure does not fail it
and the supplied sha matches the destination's current state (the remote host
rejects a blind create over an existing file and a stale-sha update). -/
def writeStep (srcPath srcSha destPath content : String) (putSha : Option String)
    (probeOk : Bool) (env2 : Env) : MoveStatus × Env × List (Call × Bool) :=
  let fail3 := env2.fails.getD env2.k false
  let env3 : Env := { env2 with k := env2.k + 1 }
  let shaMatches :=
    match lookupFs env3.fs destPath, putSha with
    | some d, some s => s == d.sha
    | none, none => true
    | _, _ => false
  let putOk := !fail3 && shaMatches
  let trHead := [((Call.getContents srcPath : Call), true),
                 ((Call.getContents destPath : Call), probeOk),
                 ((Call.putContents destPath content putSha : Call), putOk)]
  if putOk = false then
    (.failed "create destination failed", env3, trHead)
  else
    deleteStep srcPath srcSha trHead
      { env3 with fs := insertFs env3.fs destPath ⟨content, blobSha content⟩ }

/-- Embedding of `moveSingleFile` (move-files/index.ts, lines 113-189):
same-path guard, GET source, probe destination, then the write and delete
stages.  Returns the status, the updated world, and the trace of issued calls
with their response status. -/
def moveSingleFile (srcPath srcSha destPath : String) (env : Env) :
    MoveStatus × Env × List (Call × Bool) :=
  if srcPath = destPath then
    (.skipped, env, [])
  else
    let fail1 := env.fails.getD env.k false
    let env1 : Env := { env with k := env.k + 1 }
    match lookupFs env1.fs srcPath with
    | none => (.failed "fetch source failed", env1, [(.getContents srcPath, false)])
    | some srcData =>
      if fail1 then
        (.failed "fetch source failed", env1, [(.getContents srcPath, false)])
      else
        let fail2 := env1.fails.getD env1.k false
        let env2 : Env := { env1 with k := env1.k + 1 }
        let probe : Option String × Bool :=
          match lookupFs env2.fs destPath with
          | some d => if fail2 then (none, false) else (some d.sha, true)
          | none => (none, false)
        writeStep srcPath srcSha destPath srcData.content probe.1 probe.2 env2

theorem lookupFs_eraseFs (fs : Fs) (d s : String) (h : s ≠ d) :
    lookupFs (eraseFs fs d) s = lookupFs fs s := by
  induction fs with
  | nil => rfl
  | cons kv rest ih =>
    obtain ⟨q, f⟩ := kv
    by_cases hq : q = d
    · subst hq
      have hqs : ¬ q = s := fun hs => h (Eq.symm hs)
      simp [eraseFs, lookupFs, hqs, ih]
    · by_cases hqs : q = s

      · simp [eraseFs, lookupFs, hq, hqs, h]
      · simp [eraseFs, lookupFs, hq, hqs, ih]

theorem lookupFs_insertFs_ne (fs : Fs) (d s : String) (f : GhFile) (h : s ≠ d) :
    lookupFs (insertFs fs d f) s = lookupFs fs s := by
  have hds : ¬ d = s := fun hds => h (Eq.symm hds)
  simp only [insertFs, lookupFs, if_neg hds]
  exact lookupFs_eraseFs fs d s h

theorem lookupFs_insertFs_self (fs : Fs) (d : String) (f : GhFile) :
    lookupFs (insertFs fs d f) d = some f := by
  simp [insertFs, lookupFs]

/-- C7: when `sourcePath` equals `destPath`, `moveSingleFile` returns the
`skipped` status immediately, leaves the remote state untouched, and issues
zero network calls (empty trace). -/
theorem moveSingleFile_same_path_skipped_no_calls (p sha : String) (env : Env) :
    moveSingleFile p sha p env = (.skipped, env, []) := by
  simp [moveSingleFile]


theorem deleteStep_cases (srcPath srcSha : String) (trHead : List (Call × Bool)) (env4 : Env) :
    (∃ env5 : Env, deleteStep srcPath srcSha trHead env4 =
        (.failed "delete source failed", env5,
          trHead ++ [((Call.deleteContents srcPath srcSha : Call), false)])
      ∧ env5.fs = env4.fs)
    ∨ (∃ env5 : Env, deleteStep srcPath srcSha trHead env4 =
        (.moved, env5,
          trHead ++ [((Call.deleteContents srcPath srcSha : Call), true)])
      ∧ env5.fs = eraseFs env4.fs srcPath) := by
  simp only [deleteStep]
  split
  · exact Or.inl ⟨_, rfl, rfl⟩
  · exact Or.inr ⟨_, rfl, rfl⟩

theorem writeStep_cases (srcPath srcSha destPath content : String) (putSha : Option String)
    (probeOk : Bool) (env2 : Env) :
    (∃ env3 : Env, writeStep srcPath srcSha destPath content putSha probeOk env2 =
        (.failed "create destination failed", env3,
          [((Call.getContents srcPath : Call), true),
           ((Call.getContents destPath : Call), probeOk),
           ((Call.putContents destPath content putSha : Call), false)])
      ∧ env3.fs = env2.fs)
    ∨ (∃ env4 : Env, writeStep srcPath srcSha destPath content putSha probeOk env2 =
        deleteStep srcPath srcSha
          [((Call.getContents srcPath : Call), true),
           ((Call.getContents destPath : Call), probeOk),
           ((Call.putContents destPath content putSha : Call), true)] env4
      ∧ env4.fs = insertFs env2.fs destPath ⟨content, blobSha content⟩) := by
  simp only [writeStep]
  split
  next hput =>
    rw [hput]
    exact Or.inl ⟨_, rfl, rfl⟩
  next hput =>
    have hput' := eq_true_of_ne_false hput
    rw [hput']
    exact Or.inr ⟨_, rfl, rfl⟩

/-- Case analysis of `moveSingleFile`: the same-path skip, a failed source
fetch (absent source or infrastructure failure), or the write stage running
on the state with the call counter advanced past the two GETs. -/
theorem moveSingleFile_cases (srcPath srcSha destPath : String) (env : Env) :
    (srcPath = destPath ∧ moveSingleFile srcPath srcSha destPath env = (.skipped, env, []))
    ∨ (∃ env1 : Env, moveSingleFile srcPath srcSha destPath env =
        (.failed "fetch source failed", env1, [((Call.getContents srcPath : Call), false)])
      ∧ env1.fs = env.fs)
    ∨ (srcPath ≠ destPath ∧ ∃ (srcData : GhFile) (probeSha : Option String) (probeOk : Bool) (env2 : Env),
        lookupFs env.fs srcPath = some srcData
      ∧ moveSingleFile srcPath srcSha destPath env =
          writeStep srcPath srcSha destPath srcData.content probeSha probeOk env2
      ∧ env2.fs = env.fs) := by
  by_cases h0 : srcPath = destPath
  · exact Or.inl ⟨h0, by simp [moveSingleFile, h0]⟩
  · rcases hsrc : lookupFs env.fs srcPath with _ | srcData
    · refine Or.inr (Or.inl ⟨{ env with k := env.k + 1 }, ?_, rfl⟩)
      simp only [moveSingleFile, if_neg h0, hsrc]
    · by_cases hf1 : env.fails.getD env.k false = true
      · refine Or.inr (Or.inl ⟨{ env with k := env.k + 1 }, ?_, rfl⟩)
        simp only [moveSingleFile, if_neg h0, hsrc, if_pos hf1]
      · refine Or.inr (Or.inr ⟨h0, srcData,
          (match lookupFs env.fs destPath with
            | some d => if env.fails.getD (env.k + 1) false = true then (none, false)
                        else (some d.sha, true)
            | none => ((none : Option String), false)).1,
          (match lookupFs env.fs destPath with
            | some d => if env.fails.getD (env.k + 1) false = true then (none, false)
                        else (some d.sha, true)
            | none => ((none : Option String), false)).2,
          { env with k := env.k + 1 + 1 }, rfl, ?_, rfl⟩)
        simp only [moveSingleFile, if_neg h0, hsrc, if_neg hf1]

/-- C1: in every execution of `moveSingleFile` in which the write (PUT) to the
destination fails, no delete call appears anywhere in the trace and the source
path's stored content and content id are unchanged. -/
theorem moveSingleFile_write_fail_no_delete
    (srcPath srcSha destPath c : String) (ps : Option String) (env : Env)
    (h : ((Call.putContents destPath c ps : Call), false)
          ∈ (moveSingleFile srcPath srcSha destPath env).2.2) :
    (∀ p s : String, ∀ b : Bool,
        ((Call.deleteContents p s : Call), b) ∉ (moveSingleFile srcPath srcSha destPath env).2.2)
    ∧ lookupFs (moveSingleFile srcPath srcSha destPath env).2.1.fs srcPath
        = lookupFs env.fs srcPath := by
  rcases moveSingleFile_cases srcPath srcSha destPath env with
    ⟨_, he⟩ | ⟨env1, he, hfs⟩ | ⟨_, srcData, probeSha, probeOk, env2, _, he, hfs⟩
  · rw [he] at h
    simp at h
  · rw [he]
    exact ⟨fun p s b hmem => by simp at hmem, by simp [hfs]⟩
  · rw [he] at h ⊢
    rcases writeStep_cases srcPath srcSha destPath srcData.content probeSha probeOk env2 with
      ⟨env3, hw, hfs3⟩ | ⟨env4, hw, hfs4⟩
    · rw [hw]
      refine ⟨fun p s b hmem => by simp at hmem, ?_⟩
      simp [hfs3, hfs]
    · rw [hw] at h
      rcases deleteStep_cases srcPath srcSha
          [((Call.getContents srcPath : Call), true),
           ((Call.getContents destPath : Call), probeOk),
           ((Call.putContents destPath srcData.content probeSha : Call), true)] env4 with
        ⟨env5, hd, _⟩ | ⟨env5, hd, _⟩
      · rw [hd] at h
        simp at h
      · rw [hd] at h
        simp at h

/-- C2: in every execution of `moveSingleFile` in which the write to the
destination succeeded (an ok PUT is in the trace) but the delete of the source
failed (a non-ok DELETE is in the trace), the destination holds the source's
content under a fresh content id (duplicated, not lost), and the item's result
is a failure (the thrown error), not a silent success. -/
theorem moveSingleFile_delete_fail_duplicated
    (srcPath srcSha destPath : String) (env : Env) (f : GhFile)
    (hsrc : lookupFs env.fs srcPath = some f)
    (hput : ∃ c ps, ((Call.putContents destPath c ps : Call), true)
          ∈ (moveSingleFile srcPath srcSha destPath env).2.2)
    (hdel : ((Call.deleteContents srcPath srcSha : Call), false)
          ∈ (moveSingleFile srcPath srcSha destPath env).2.2) :
    (∃ msg, (moveSingleFile srcPath srcSha destPath env).1 = .failed msg)
    ∧ lookupFs (moveSingleFile srcPath srcSha destPath env).2.1.fs destPath
        = some ⟨f.content, blobSha f.content⟩ := by
  rcases moveSingleFile_cases srcPath srcSha destPath env with
    ⟨_, he⟩ | ⟨env1, he, hfs⟩ | ⟨_, srcData, probeSha, probeOk, env2, hlook, he, hfs⟩
  · rw [he] at hdel
    simp at hdel
  · rw [he] at hdel
    simp at hdel
  · have hsd : srcData = f := by
      rw [hsrc] at hlook
      exact (Option.some.injEq _ _ ▸ hlook).symm
    subst hsd
    rw [he] at hdel ⊢
    rcases writeStep_cases srcPath srcSha destPath srcData.content probeSha probeOk env2 with
      ⟨env3, hw, hfs3⟩ | ⟨env4, hw, hfs4⟩
    · rw [hw] at hdel
      simp at hdel
    · rw [hw] at hdel ⊢
      rcases deleteStep_cases srcPath srcSha
          [((Call.getContents srcPath : Call), true),
           ((Call.getContents destPath : Call), probeOk),
           ((Call.putContents destPath srcData.content probeSha : Call), true)] env4 with
        ⟨env5, hd, hfs5⟩ | ⟨env5, hd, hfs5⟩
      · rw [hd]
        refine ⟨⟨"delete source failed", rfl⟩, ?_⟩
        rw [hfs5, hfs4, hfs]
        exact lookupFs_insertFs_self env.fs destPath ⟨srcData.content, blobSha srcData.content⟩
      · rw [hd] at hdel
        simp at hdel

/-- Concrete world for witnesses: one source file, third call (the PUT) fails. -/
def envWriteFails : Env :=
  { fs := [("a.txt", ⟨"A", "s1"⟩)], listings := [], fails := [false, false, true], k := 0 }

/-- Concrete world for witnesses: one source file, fourth call (the DELETE) fails. -/
def envDeleteFails : Env :=
  { fs := [("a.txt", ⟨"A", "s1"⟩)], listings := [], fails := [false, false, false, true], k := 0 }

theorem moveSingleFile_write_fail_no_delete_witness :
    (((Call.putContents "b.txt" "A" none : Call), false)
        ∈ (moveSingleFile "a.txt" "s1" "b.txt" envWriteFails).2.2)
    ∧ ((∀ p s : String, ∀ b : Bool,
          ((Call.deleteContents p s : Call), b)
            ∉ (moveSingleFile "a.txt" "s1" "b.txt" envWriteFails).2.2)
       ∧ lookupFs (moveSingleFile "a.txt" "s1" "b.txt" envWriteFails).2.1.fs "a.txt"
           = lookupFs envWriteFails.fs "a.txt") :=
  ⟨by decide,
   moveSingleFile_write_fail_no_delete "a.txt" "s1" "b.txt" "A" none envWriteFails (by decide)⟩

theorem moveSingleFile_delete_fail_duplicated_witness :
    lookupFs envDeleteFails.fs "a.txt" = some ⟨"A", "s1"⟩
    ∧ ((∃ msg, (moveSingleFile "a.txt" "s1" "b.txt" envDeleteFails).1 = .failed msg)
       ∧ lookupFs (moveSingleFile "a.txt" "s1" "b.txt" envDeleteFails).2.1.fs "b.txt"
           = some ⟨"A", blobSha "A"⟩) :=
  ⟨by decide,
   moveSingleFile_delete_fail_duplicated "a.txt" "s1" "b.txt" envDeleteFails ⟨"A", "s1"⟩
     (by decide) ⟨"A", none, by decide⟩ (by decide)⟩

/-- JS `s.startsWith(pre)`, at the character level. -/
def jsStartsWith (s pre : String) : Bool := pre.data.isPrefixOf s.data

/-- The JS replace of one leading slash by the empty string, as in
move-files/index.ts line 239: remove a single leading slash when present. -/
def stripLeadingSlash (s : String) : String :=
  match s.data with
  | '/' :: rest => ⟨rest⟩
  | _ => s

/-- The JS parent-directory computation of move-files/index.ts lines 197 and
210: everything before the last slash when the path has one, else empty. -/
def parentDir (p : String) : String :=
  if p.data.contains '/' then ⟨(((p.data.reverse).dropWhile (fun c => !(c == '/'))).tail).reverse⟩
  else ""

/-- The JS split-pop of move-files/index.ts lines 196 and 232: the segment
after the last slash. -/
def baseNameOf (p : String) : String :=
  ⟨((p.data.reverse).takeWhile (fun c => !(c == '/'))).reverse⟩

/-- The relative-path computation of the directory-move loop
(move-files/index.ts line 239): drop the directory prefix, then one slash. -/
def relativePath (dirPath dfPath : String) : String :=
  stripLeadingSlash ⟨dfPath.data.drop dirPath.length⟩

/-- The target directory of a directory move (move-files/index.ts line 233). -/
def targetDirOf (destination dirPath : String) : String :=
  if destination = "" then baseNameOf dirPath
  else destination ++ "/" ++ baseNameOf dirPath

/-- The item loop of `listFilesRecursively`: collect
files, recurse (through `recur`, the depth-limited recursive listing) into
subdirectories. -/
def listItemsGo
    (recur : String → Env → List (String × String) × Env × List (Call × Bool)) :
    List LsItem → Env → List (String × String) × Env × List (Call × Bool)
  | [], env => ([], env, [])
  | item :: rest, env =>
    if item.type = "file" then
      let restRes := listItemsGo recur rest env
      ((item.path, item.sha) :: restRes.1, restRes.2.1, restRes.2.2)
    else if item.type = "dir" then
      let sub := recur item.path env
      let restRes := listItemsGo recur rest sub.2.1
      (sub.1 ++ restRes.1, restRes.2.1, sub.2.2 ++ restRes.2.2)
    else
      listItemsGo recur rest env

/-- Embedding of `listFilesRecursively` (move-files/index.ts lines 93-110):
GET the directory contents; on a non-ok response return the results collected
so far (no error is raised), otherwise walk the items, collecting files and
recursing into subdirectories.  `fuel` bounds the recursion depth; the real
listing tree is finite, so every execution of the source corresponds to a run
with large enough fuel. -/
def listFilesRecursively : Nat → String → Env → List (String × String) × Env × List (Call × Bool)
  | 0, _, env => ([], env, [])
  | Nat.succ fuel1, dirPath, env =>
    let infraFail := env.fails.getD env.k false
    let env1 : Env := { env with k := env.k + 1 }
    match lookupListing env1.listings dirPath with
    | none => ([], env1, [((Call.listContents dirPath : Call), false)])
    | some items =>
      if infraFail then ([], env1, [((Call.listContents dirPath : Call), false)])
      else
        let sub := listItemsGo (fun p e => listFilesRecursively fuel1 p e) items env1
        (sub.1, sub.2.1, ((Call.listContents dirPath : Call), true) :: sub.2.2)

/-- One element of the `details` array of the move-files response. -/
structure Detail where
  src : String
  dest : String
  status : String
deriving Repr, DecidableEq

/-- The `type` field of a move-files request item (zod enum `file | dir`). -/
inductive FType where
  | file
  | dir
deriving Repr, DecidableEq

/-- One element of the validated `files` array of a move-files request. -/
structure ReqFile where
  path : String
  sha : String
  type : FType
deriving Repr, DecidableEq

/-- The responses the move-files handler can produce after validation and
authorization: the 200 success JSON with counters and details, the 400
self-or-descendant rejection, and the 500 response produced by the outer
catch when a move throws. -/
inductive MoveFilesResponse where
  | success (moved skipped : Nat) (details : List Detail)
  | invalidMove (dirPath destination : String)
  | serverError (msg : String)
deriving Repr, DecidableEq

/-- State produced by the directory-move inner loop: a thrown error if any,
the updated counters, details, world and trace, plus (as pure observation)
the (source, destination) argument pairs of the `moveSingleFile` invocations
it made. -/
structure DirLoopOut where
  err : Option String
  moved : Nat
  skipped : Nat
  details : List Detail
  env : Env
  trace : List (Call × Bool)
  relocations : List (String × String)
deriving Repr, DecidableEq

/-- The inner per-contained-file loop of the move-files handler
(move-files/index.ts lines 238-249): relocate each contained file to
`targetDir + "/" + relative`, tallying moved/skipped; a thrown move error
stops the loop (it propagates to the outer catch). -/
def processDirFiles (dirPath targetDir : String) (dirFiles : List (String × String))
    (moved skipped : Nat) (details : List Detail) (env : Env) : DirLoopOut :=
  match dirFiles with
  | [] => ⟨none, moved, skipped, details, env, [], []⟩
  | (p, sha) :: rest =>
    let newPath := targetDir ++ "/" ++ relativePath dirPath p
    let res := moveSingleFile p sha newPath env
    match res.1 with
    | .failed msg => ⟨some msg, moved, skipped, details, res.2.1, res.2.2, [(p, newPath)]⟩
    | .moved =>
      let out := processDirFiles dirPath targetDir rest (moved + 1) skipped
        (details ++ [⟨p, newPath, "moved"⟩]) res.2.1
      ⟨out.err, out.moved, out.skipped, out.details, out.env,
        res.2.2 ++ out.trace, (p, newPath) :: out.relocations⟩
    | .skipped =>
      let out := processDirFiles dirPath targetDir rest moved (skipped + 1)
        (details ++ [⟨p, newPath, "skipped"⟩]) res.2.1
      ⟨out.err, out.moved, out.skipped, out.details, out.env,
        res.2.2 ++ out.trace, (p, newPath) :: out.relocations⟩

/-- The per-item loop of the move-files handler (move-files/index.ts lines
195-273), from accumulated counters and details.  A file item already in the
destination folder, or a directory item already in the destination parent, is
skipped with no calls; a directory whose destination is itself or its own
descendant makes the whole request return the 400 rejection; otherwise files
are relocated directly and directories are expanded through the recursive
listing; a thrown move error produces the 500 `serverError` response and
abandons the remaining items (there is no per-item catch in the source). -/
def processFiles (fuel : Nat) (destination : String) (files : List ReqFile)
    (moved skipped : Nat) (details : List Detail) (env : Env) :
    MoveFilesResponse × Env × List (Call × Bool) :=
  match files with
  | [] => (.success moved skipped details, env, [])
  | f :: rest =>
    let fileName := baseNameOf f.path
    let sourceDir := parentDir f.path
    match f.type with
    | .file =>
      if destination = sourceDir then
        processFiles fuel destination rest moved (skipped + 1)
          (details ++ [⟨f.path, if destination = "" then "root" else destination,
            "skipped (same folder)"⟩]) env
      else
        let newPath := if destination = "" then fileName else destination ++ "/" ++ fileName
        let res := moveSingleFile f.path f.sha newPath env
        match res.1 with
        | .failed msg => (.serverError msg, res.2.1, res.2.2)
        | .moved =>
          let next := processFiles fuel destination rest (moved + 1) skipped
            (details ++ [⟨f.path, newPath, "moved"⟩]) res.2.1
          (next.1, next.2.1, res.2.2 ++ next.2.2)
        | .skipped =>
          let next := processFiles fuel destination rest moved (skipped + 1)
            (details ++ [⟨f.path, newPath, "skipped"⟩]) res.2.1
          (next.1, next.2.1, res.2.2 ++ next.2.2)
    | .dir =>
      if destination = sourceDir then
        processFiles fuel destination rest moved (skipped + 1)
          (details ++ [⟨f.path, if destination = "" then "root" else destination,
            "skipped (same parent)"⟩]) env
      else if destination = f.path ∨ (!(destination == "") && jsStartsWith destination (f.path ++ "/")) = true then
        (.invalidMove f.path destination, env, [])
      else
        let targetDir := targetDirOf destination f.path
        let listed := listFilesRecursively fuel f.path env
        let out := processDirFiles f.path targetDir listed.1 moved skipped details listed.2.1
        match out.err with
        | some msg => (.serverError msg, out.env, listed.2.2 ++ out.trace)
        | none =>
          let next := processFiles fuel destination rest out.moved out.skipped out.details out.env
          (next.1, next.2.1, listed.2.2 ++ out.trace ++ next.2.2)

/-- The move-files handler loop from its initial state (zero counters, empty
details), as reached after schema validation and authorization. -/
def moveFilesHandler (fuel : Nat) (destination : String) (files : List ReqFile) (env : Env) :
    MoveFilesResponse × Env × List (Call × Bool) :=
  processFiles fuel destination files 0 0 [] env

/-- Sequencing of the per-item loop: if processing a prefix of the batch
completes normally (no throw, no rejection), processing the whole batch first
performs exactly the prefix's calls and then continues with the remaining
items from the state the prefix produced. -/
theorem processFiles_append
    (fuel : Nat) (destination : String) (xs : List ReqFile) (ys : List ReqFile)
    (moved skipped : Nat) (details : List Detail) (env : Env)
    (m2 s2 : Nat) (d2 : List Detail) (env2 : Env) (tr2 : List (Call × Bool))
    (h : processFiles fuel destination xs moved skipped details env
          = (.success m2 s2 d2, env2, tr2)) :
    processFiles fuel destination (xs ++ ys) moved skipped details env =
      ((processFiles fuel destination ys m2 s2 d2 env2).1,
       (processFiles fuel destination ys m2 s2 d2 env2).2.1,
       tr2 ++ (processFiles fuel destination ys m2 s2 d2 env2).2.2) := by
  induction xs generalizing moved skipped details env tr2 with
  | nil =>
    simp only [processFiles, Prod.mk.injEq, MoveFilesResponse.success.injEq] at h
    obtain ⟨⟨hm, hs, hd⟩, henv, htr⟩ := h
    subst hm; subst hs; subst hd; subst henv; subst htr
    simp only [List.nil_append]
  | cons f rest ih =>
    rcases hty : f.type with _ | _
    · by_cases hskip : destination = parentDir f.path
      · simp only [List.cons_append, List.append_eq, processFiles, hty, if_pos hskip] at h ⊢
        exact ih _ _ _ _ _ h
      · simp only [List.cons_append, List.append_eq, processFiles, hty, if_neg hskip] at h ⊢
        rcases hmv : (moveSingleFile f.path f.sha
            (if destination = "" then baseNameOf f.path
             else destination ++ "/" ++ baseNameOf f.path) env).1 with _ | _ | msg <;>
          simp only [hmv] at h ⊢
        · rcases hN : processFiles fuel destination rest (moved + 1) skipped
              (details ++ [⟨f.path,
                if destination = "" then baseNameOf f.path
                else destination ++ "/" ++ baseNameOf f.path, "moved"⟩])
              (moveSingleFile f.path f.sha
                (if destination = "" then baseNameOf f.path
                 else destination ++ "/" ++ baseNameOf f.path) env).2.1 with ⟨r, envr, trr⟩
          rw [hN] at h
          dsimp only at h
          injection h with h1 h23
          injection h23 with h2 h3
          subst h1; subst h2
          rw [ih _ _ _ _ trr hN]
          subst h3
          simp [List.append_assoc]
        · rcases hN : processFiles fuel destination rest moved (skipped + 1)
              (details ++ [⟨f.path,
                if destination = "" then baseNameOf f.path
                else destination ++ "/" ++ baseNameOf f.path, "skipped"⟩])
              (moveSingleFile f.path f.sha
                (if destination = "" then baseNameOf f.path
                 else destination ++ "/" ++ baseNameOf f.path) env).2.1 with ⟨r, envr, trr⟩
          rw [hN] at h
          dsimp only at h
          injection h with h1 h23
          injection h23 with h2 h3
          subst h1; subst h2
          rw [ih _ _ _ _ trr hN]
          subst h3
          simp [List.append_assoc]
        · simp at h
    · by_cases hskip : destination = parentDir f.path
      · simp only [List.cons_append, List.append_eq, processFiles, hty, if_pos hskip] at h ⊢
        exact ih _ _ _ _ _ h
      · by_cases hval : destination = f.path ∨
            (!(destination == "") && jsStartsWith destination (f.path ++ "/")) = true
        · simp only [List.cons_append, List.append_eq, processFiles, hty, if_neg hskip, if_pos hval] at h
          simp at h
        · simp only [List.cons_append, List.append_eq, processFiles, hty, if_neg hskip, if_neg hval] at h ⊢
          rcases herr : (processDirFiles f.path (targetDirOf destination f.path)
              (listFilesRecursively fuel f.path env).1 moved skipped details
              (listFilesRecursively fuel f.path env).2.1).err with _ | msg <;>
            simp only [herr] at h ⊢
          · rcases hN : processFiles fuel destination rest
                (processDirFiles f.path (targetDirOf destination f.path)
                  (listFilesRecursively fuel f.path env).1 moved skipped details
                  (listFilesRecursively fuel f.path env).2.1).moved
                (processDirFiles f.path (targetDirOf destination f.path)
                  (listFilesRecursively fuel f.path env).1 moved skipped details
                  (listFilesRecursively fuel f.path env).2.1).skipped
                (processDirFiles f.path (targetDirOf destination f.path)
                  (listFilesRecursively fuel f.path env).1 moved skipped details
                  (listFilesRecursively fuel f.path env).2.1).details
                (processDirFiles f.path (targetDirOf destination f.path)
                  (listFilesRecursively fuel f.path env).1 moved skipped details
                  (listFilesRecursively fuel f.path env).2.1).env with ⟨r, envr, trr⟩
            rw [hN] at h
            dsimp only at h
            injection h with h1 h23
            injection h23 with h2 h3
            subst h1; subst h2
            rw [ih _ _ _ _ trr hN]
            subst h3
            simp [List.append_assoc]
          · simp at h

/-- C8: an item whose computed new parent equals its current parent — a file
whose destination equals its current directory, or a directory whose
destination equals its current parent — is recorded as skipped (with the
source's skip status string) and contributes no network call at all:
processing the batch equals processing the remaining items with the skipped
counter bumped and the skip detail appended. -/
theorem processFiles_same_parent_skipped
    (fuel : Nat) (destination : String) (f : ReqFile) (rest : List ReqFile)
    (moved skipped : Nat) (details : List Detail) (env : Env)
    (h : destination = parentDir f.path) :
    processFiles fuel destination (f :: rest) moved skipped details env =
      processFiles fuel destination rest moved (skipped + 1)
        (details ++ [⟨f.path, if destination = "" then "root" else destination,
          match f.type with
          | .file => "skipped (same folder)"
          | .dir => "skipped (same parent)"⟩]) env := by
  rcases hty : f.type with _ | _ <;>
    simp only [processFiles, hty, if_pos h]

theorem processFiles_same_parent_skipped_witness :
    ("d" = parentDir "d/a.txt")
    ∧ processFiles 0 "d" [⟨"d/a.txt", "s1", FType.file⟩] 0 0 []
        { fs := [], listings := [], fails := [], k := 0 } =
      processFiles 0 "d" [] 0 (0 + 1)
        ([] ++ [⟨"d/a.txt", if "d" = "" then "root" else "d",
          match FType.file with
          | .file => "skipped (same folder)"
          | .dir => "skipped (same parent)"⟩])
        { fs := [], listings := [], fails := [], k := 0 } :=
  ⟨by decide,
   processFiles_same_parent_skipped 0 "d" ⟨"d/a.txt", "s1", FType.file⟩ [] 0 0 []
     { fs := [], listings := [], fails := [], k := 0 } (by decide)⟩

/-- C10: when the recursive listing of a directory item fails (the contents
request for the directory gets a non-ok response), the handler reports no
error: the listing helper returns the empty list, the directory contributes
zero per-item outcomes, no mutating call is issued, and the batch completes
with the success response. -/
theorem processFiles_dir_listing_failure_masked
    (n : Nat) (destination : String) (f : ReqFile)
    (moved skipped : Nat) (details : List Detail) (env : Env)
    (hty : f.type = .dir)
    (hskip : ¬ destination = parentDir f.path)
    (hval : ¬ (destination = f.path ∨
        (!(destination == "") && jsStartsWith destination (f.path ++ "/")) = true))
    (hls : lookupListing env.listings f.path = none) :
    processFiles (n + 1) destination [f] moved skipped details env =
      (.success moved skipped details, { env with k := env.k + 1 },
        [((Call.listContents f.path : Call), false)]) := by
  simp only [processFiles, hty, if_neg hskip, if_neg hval, listFilesRecursively, hls,
    processDirFiles, List.append_nil, List.nil_append]

theorem processFiles_dir_listing_failure_masked_witness :
    ((FType.dir = FType.dir)
     ∧ ¬ "lib" = parentDir "src/utils"
     ∧ ¬ ("lib" = "src/utils" ∨
          (!("lib" == "") && jsStartsWith "lib" ("src/utils" ++ "/")) = true)
     ∧ lookupListing ([] : List (String × List LsItem)) "src/utils" = none)
    ∧ processFiles 1 "lib" [⟨"src/utils", "sd", FType.dir⟩] 0 0 []
        { fs := [], listings := [], fails := [], k := 0 } =
      (.success 0 0 [], { fs := [], listings := [], fails := [], k := 1 },
        [((Call.listContents "src/utils" : Call), false)]) :=
  ⟨⟨rfl, by decide, by decide, rfl⟩,
   processFiles_dir_listing_failure_masked 0 "lib" ⟨"src/utils", "sd", FType.dir⟩ 0 0 []
     { fs := [], listings := [], fails := [], k := 0 } rfl (by decide) (by decide) rfl⟩

theorem processFiles_head_dir_reject
    (fuel : Nat) (destination : String) (f : ReqFile) (rest : List ReqFile)
    (moved skipped : Nat) (details : List Detail) (env : Env)
    (hty : f.type = .dir)
    (hskip : ¬ destination = parentDir f.path)
    (hval : destination = f.path ∨
        (!(destination == "") && jsStartsWith destination (f.path ++ "/")) = true) :
    processFiles fuel destination (f :: rest) moved skipped details env =
      (.invalidMove f.path destination, env, []) := by
  simp only [processFiles, hty, if_neg hskip, if_pos hval]

theorem processFiles_head_file_fail
    (fuel : Nat) (destination : String) (f : ReqFile) (rest : List ReqFile)
    (moved skipped : Nat) (details : List Detail) (env env3 : Env)
    (msg : String) (tr3 : List (Call × Bool))
    (hty : f.type = .file)
    (hskip : ¬ destination = parentDir f.path)
    (hmv : moveSingleFile f.path f.sha
        (if destination = "" then baseNameOf f.path
         else destination ++ "/" ++ baseNameOf f.path) env = (.failed msg, env3, tr3)) :
    processFiles fuel destination (f :: rest) moved skipped details env =
      (.serverError msg, env3, tr3) := by
  simp only [processFiles, hty, if_neg hskip, hmv]

/-- C3 amended: a directory item whose destination is itself or its own
descendant makes the handler return the 400 rejection, with no mutating call
issued for that directory or for any later item — but validation happens
per item inside the loop, so items earlier in the batch have already been
processed and their calls (including writes and deletes) already issued; the
trace of the rejected request is exactly the prefix's trace.  The rejection
applies when the directory is not skipped first by the same-parent no-op
guard, which is checked before the self/descendant check. -/
theorem moveFiles_dir_self_reject
    (fuel : Nat) (destination : String) (pre post : List ReqFile) (d : ReqFile) (env : Env)
    (m2 s2 : Nat) (d2 : List Detail) (env2 : Env) (tr2 : List (Call × Bool))
    (hty : d.type = .dir)
    (hskip : ¬ destination = parentDir d.path)
    (hval : destination = d.path ∨
        (!(destination == "") && jsStartsWith destination (d.path ++ "/")) = true)
    (hpre : processFiles fuel destination pre 0 0 [] env = (.success m2 s2 d2, env2, tr2)) :
    moveFilesHandler fuel destination (pre ++ d :: post) env =
      (.invalidMove d.path destination, env2, tr2) := by
  unfold moveFilesHandler
  rw [processFiles_append fuel destination pre (d :: post) 0 0 [] env m2 s2 d2 env2 tr2 hpre]
  rw [processFiles_head_dir_reject fuel destination d post m2 s2 d2 env2 hty hskip hval]
  simp

/-- C3 counterexample: with the batch `[a.txt (file), x (dir)]` and
destination `x/y`, the offending directory is rejected, but only after the
earlier file item was fully moved — the rejected request's trace contains a
successful write and a successful delete, refuting "rejected before any
mutating call is issued, including when the batch contains other items listed
before the offending directory". -/
theorem moveFiles_reject_after_mutation_cex :
    (moveFilesHandler 1 "x/y" [⟨"a.txt", "s1", FType.file⟩, ⟨"x", "sx", FType.dir⟩]
        { fs := [("a.txt", ⟨"A", "s1"⟩)], listings := [], fails := [], k := 0 }).1
      = .invalidMove "x" "x/y"
    ∧ ((Call.putContents "x/y/a.txt" "A" none : Call), true)
        ∈ (moveFilesHandler 1 "x/y" [⟨"a.txt", "s1", FType.file⟩, ⟨"x", "sx", FType.dir⟩]
            { fs := [("a.txt", ⟨"A", "s1"⟩)], listings := [], fails := [], k := 0 }).2.2
    ∧ ((Call.deleteContents "a.txt" "s1" : Call), true)
        ∈ (moveFilesHandler 1 "x/y" [⟨"a.txt", "s1", FType.file⟩, ⟨"x", "sx", FType.dir⟩]
            { fs := [("a.txt", ⟨"A", "s1"⟩)], listings := [], fails := [], k := 0 }).2.2 := by
  decide

theorem moveFiles_dir_self_reject_witness :
    (FType.dir = FType.dir
     ∧ ¬ "x/y" = parentDir "x"
     ∧ ("x/y" = "x" ∨ (!("x/y" == "") && jsStartsWith "x/y" ("x" ++ "/")) = true)
     ∧ processFiles 1 "x/y" [] 0 0 []
         { fs := [], listings := [], fails := [], k := 0 } =
       (.success 0 0 [], { fs := [], listings := [], fails := [], k := 0 }, []))
    ∧ moveFilesHandler 1 "x/y" ([] ++ (⟨"x", "sx", FType.dir⟩ : ReqFile) :: []) 
        { fs := [], listings := [], fails := [], k := 0 } =
      (.invalidMove "x" "x/y", { fs := [], listings := [], fails := [], k := 0 }, []) :=
  ⟨⟨rfl, by decide, by decide, by decide⟩,
   moveFiles_dir_self_reject 1 "x/y" [] [] ⟨"x", "sx", FType.dir⟩
     { fs := [], listings := [], fails := [], k := 0 } 0 0 []
     { fs := [], listings := [], fails := [], k := 0 } [] rfl (by decide) (by decide) (by decide)⟩

/-- C4 amended: when the relocation of a file in the batch throws (any step of
`moveSingleFile` fails), the whole request aborts through the outer catch:
the response is the 500 server error carrying the thrown message, no outcome
list is returned, and the items after the failing one are not processed — the
trace ends with the failing item's calls. -/
theorem moveFiles_item_failure_aborts
    (fuel : Nat) (destination : String) (pre post : List ReqFile) (f : ReqFile)
    (env env3 : Env) (m2 s2 : Nat) (d2 : List Detail) (env2 : Env)
    (tr2 tr3 : List (Call × Bool)) (msg : String)
    (hty : f.type = .file)
    (hskip : ¬ destination = parentDir f.path)
    (hpre : processFiles fuel destination pre 0 0 [] env = (.success m2 s2 d2, env2, tr2))
    (hmv : moveSingleFile f.path f.sha
        (if destination = "" then baseNameOf f.path
         else destination ++ "/" ++ baseNameOf f.path) env2 = (.failed msg, env3, tr3)) :
    moveFilesHandler fuel destination (pre ++ f :: post) env =
      (.serverError msg, env3, tr2 ++ tr3) := by
  unfold moveFilesHandler
  rw [processFiles_append fuel destination pre (f :: post) 0 0 [] env m2 s2 d2 env2 tr2 hpre]
  rw [processFiles_head_file_fail fuel destination f post m2 s2 d2 env2 env3 msg tr3 hty hskip hmv]

/-- C4 counterexample: a two-file batch where the first file's fetch fails
(it does not exist upstream) returns the 500 server error with an empty
details list: the second file is never processed (its path appears in no
call) and no outcome list marking the first item failed is produced —
refuting per-item failure independence. -/
theorem moveFiles_batch_abort_cex :
    moveFilesHandler 1 "d" [⟨"a.txt", "s1", FType.file⟩, ⟨"b.txt", "s2", FType.file⟩]
        { fs := [], listings := [], fails := [], k := 0 }
      = (.serverError "fetch source failed",
         { fs := [], listings := [], fails := [], k := 1 },
         [((Call.getContents "a.txt" : Call), false)]) := by
  decide

theorem moveFiles_item_failure_aborts_witness :
    (FType.file = FType.file
     ∧ ¬ "d" = parentDir "a.txt"
     ∧ processFiles 1 "d" [] 0 0 [] { fs := [], listings := [], fails := [], k := 0 } =
         (.success 0 0 [], { fs := [], listings := [], fails := [], k := 0 }, [])
     ∧ moveSingleFile "a.txt" "s1"
         (if "d" = "" then baseNameOf "a.txt" else "d" ++ "/" ++ baseNameOf "a.txt")
         { fs := [], listings := [], fails := [], k := 0 } =
         (.failed "fetch source failed", { fs := [], listings := [], fails := [], k := 1 },
          [((Call.getContents "a.txt" : Call), false)]))
    ∧ moveFilesHandler 1 "d" ([] ++ (⟨"a.txt", "s1", FType.file⟩ : ReqFile) :: [])
        { fs := [], listings := [], fails := [], k := 0 } =
      (.serverError "fetch source failed",
       { fs := [], listings := [], fails := [], k := 1 },
       [] ++ [((Call.getContents "a.txt" : Call), false)]) :=
  ⟨⟨rfl, by decide, by decide, by decide⟩,
   moveFiles_item_failure_aborts 1 "d" [] [] ⟨"a.txt", "s1", FType.file⟩
     { fs := [], listings := [], fails := [], k := 0 }
     { fs := [], listings := [], fails := [], k := 1 } 0 0 []
     { fs := [], listings := [], fails := [], k := 0 } []
     [((Call.getContents "a.txt" : Call), false)] "fetch source failed"
     rfl (by decide) (by decide) (by decide)⟩

theorem strData_append (a b : String) : (a ++ b).data = a.data ++ b.data := rfl

/-- Dropping the directory prefix and the separating slash from a properly
nested path yields exactly the relative remainder. -/
theorem relativePath_append (dirPath rel : String) :
    relativePath dirPath (dirPath ++ "/" ++ rel) = rel := by
  unfold relativePath
  have hslash : ("/" : String).data = ['/'] := rfl
  have hdata : (dirPath ++ "/" ++ rel).data = dirPath.data ++ ('/' :: rel.data) := by
    rw [strData_append, strData_append, hslash, List.append_assoc]
    rfl
  rw [hdata]
  have hlen : dirPath.length = dirPath.data.length := rfl
  rw [hlen, List.drop_left]
  rfl

/-- When the directory-move inner loop completes without a throw, the
(source, destination) pairs of its relocation invocations are exactly one per
listed file, with destination `targetDir + "/" + relative`. -/
theorem processDirFiles_relocations
    (dirPath targetDir : String) (dirFiles : List (String × String))
    (moved skipped : Nat) (details : List Detail) (env : Env)
    (h : (processDirFiles dirPath targetDir dirFiles moved skipped details env).err = none) :
    (processDirFiles dirPath targetDir dirFiles moved skipped details env).relocations =
      dirFiles.map (fun df => (df.1, targetDir ++ "/" ++ relativePath dirPath df.1)) := by
  induction dirFiles generalizing moved skipped details env with
  | nil => simp [processDirFiles]
  | cons df rest ih =>
    obtain ⟨p, sha⟩ := df
    rcases hmv : (moveSingleFile p sha (targetDir ++ "/" ++ relativePath dirPath p) env).1
      with _ | _ | msg
    · simp only [processDirFiles, hmv] at h ⊢
      rw [ih _ _ _ _ h]
      simp
    · simp only [processDirFiles, hmv] at h ⊢
      rw [ih _ _ _ _ h]
      simp
    · simp only [processDirFiles, hmv] at h
      exact Option.noConfusion h

/-- C9 amended: moving a directory relocates each listed contained file to
`destination + "/" + dirBaseName + "/" + relative` when the destination is a
nonempty path; for the root destination (empty string) the source computes
`dirBaseName + "/" + relative` instead, with no leading separator.  The
second conjunct fixes the relative part: for a file properly nested under
the directory, it is exactly the path below the directory. -/
theorem dirMove_relocation_destinations
    (destination dirPath : String) (dirFiles : List (String × String))
    (moved skipped : Nat) (details : List Detail) (env : Env)
    (hdest : destination ≠ "")
    (hok : (processDirFiles dirPath (targetDirOf destination dirPath) dirFiles
        moved skipped details env).err = none) :
    (processDirFiles dirPath (targetDirOf destination dirPath) dirFiles
        moved skipped details env).relocations =
      dirFiles.map (fun df =>
        (df.1, destination ++ "/" ++ baseNameOf dirPath ++ "/" ++ relativePath dirPath df.1))
    ∧ ∀ rel : String, relativePath dirPath (dirPath ++ "/" ++ rel) = rel := by
  constructor
  · rw [processDirFiles_relocations _ _ _ _ _ _ _ hok]
    unfold targetDirOf
    rw [if_neg hdest]
  · exact fun rel => relativePath_append dirPath rel

theorem dirMove_relocation_destinations_witness :
    (("lib" : String) ≠ ""
     ∧ (processDirFiles "src/utils" (targetDirOf "lib" "src/utils")
          [("src/utils/a.js", "sA"), ("src/utils/nested/b.js", "sB")] 0 0 []
          { fs := [("src/utils/a.js", ⟨"A", "sA"⟩), ("src/utils/nested/b.js", ⟨"B", "sB"⟩)],
            listings := [], fails := [], k := 0 }).err = none)
    ∧ (processDirFiles "src/utils" (targetDirOf "lib" "src/utils")
          [("src/utils/a.js", "sA"), ("src/utils/nested/b.js", "sB")] 0 0 []
          { fs := [("src/utils/a.js", ⟨"A", "sA"⟩), ("src/utils/nested/b.js", ⟨"B", "sB"⟩)],
            listings := [], fails := [], k := 0 }).relocations =
        [("src/utils/a.js", "sA"), ("src/utils/nested/b.js", "sB")].map (fun df =>
          (df.1, "lib" ++ "/" ++ baseNameOf "src/utils" ++ "/" ++ relativePath "src/utils" df.1)) :=
  ⟨⟨by decide, by decide⟩,
   (dirMove_relocation_destinations "lib" "src/utils"
     [("src/utils/a.js", "sA"), ("src/utils/nested/b.js", "sB")] 0 0 []
     { fs := [("src/utils/a.js", ⟨"A", "sA"⟩), ("src/utils/nested/b.js", ⟨"B", "sB"⟩)],
       listings := [], fails := [], k := 0 } (by decide) (by decide)).1⟩

/-- C9 counterexample: moving directory `src/utils` (containing `a.js`) to
the root destination (empty string) relocates `src/utils/a.js` to
`utils/a.js`, which differs from the claimed formula
`destination + "/" + dirBaseName + "/" + relative` (that would give
`/utils/a.js`): the destination formula of the claim does not hold for every
move, the root case omits the leading `destination + "/"`. -/
theorem dirMove_root_destination_cex :
    (moveFilesHandler 2 "" [⟨"src/utils", "sd", FType.dir⟩]
        { fs := [("src/utils/a.js", ⟨"A", "sA"⟩)],
          listings := [("src/utils", [⟨"src/utils/a.js", "sA", "file"⟩])],
          fails := [], k := 0 }).1
      = .success 1 0 [⟨"src/utils/a.js", "utils/a.js", "moved"⟩]
    ∧ ((Call.putContents "utils/a.js" "A" none : Call), true)
        ∈ (moveFilesHandler 2 "" [⟨"src/utils", "sd", FType.dir⟩]
            { fs := [("src/utils/a.js", ⟨"A", "sA"⟩)],
              listings := [("src/utils", [⟨"src/utils/a.js", "sA", "file"⟩])],
              fails := [], k := 0 }).2.2
    ∧ ("utils/a.js" : String) ≠ "" ++ "/" ++ "utils" ++ "/" ++ "a.js" := by
  decide

def lookupBy {β : Type} : List (String × β) → String → Option β
  | [], _ => none
  | (q, v) :: rest, p => if q = p then some v else lookupBy rest p

/-- The JS trailing-slash test at the character level. -/
def endsWithSlash (p : String) : Bool := p.data.getLast? == some '/'

/-- The tree-rewrite pipeline of the directory-delete handler
(upload-files/index.ts lines 430-445): normalize the prefix to end in a
slash, drop every listing entry equal to the deleted path or under the
prefix, keep only blob entries, and resubmit each with its existing path,
mode, type and sha. -/
def buildNewTree (path : String) (treeItems : List TreeItem) : List TreeItem :=
  let pathPref := if endsWithSlash path then path else path ++ "/"
  ((treeItems.filter
      (fun item => !(jsStartsWith item.path pathPref || item.path == path))).filter
    (fun item => item.type == "blob")).map
    (fun item => ⟨item.path, item.mode, item.type, item.sha⟩)

/-- The git-data world of the directory-delete handler: the branch ref, the
commit and tree objects the host can serve, and the infrastructure failure
script with the call counter. -/
structure GitEnv where
  branchSha : String
  commits : List (String × String)
  trees : List (String × List TreeItem)
  fails : List Bool
  k : Nat
deriving Repr, DecidableEq

/-- Outcome of the delete handler: the 200 success or an error response (the
handler returns the sanitized upstream error; bodies are abstracted). -/
inductive DeleteResponse where
  | ok
  | err (msg : String)
deriving Repr, DecidableEq

/-- Id the host assigns to the tree created in step 5. -/
def createdTreeSha : String := "created-tree"

/-- Id the host assigns to the commit created in step 6. -/
def createdCommitSha : String := "created-commit"

/-- Embedding of the directory branch of the delete handler
(upload-files/index.ts lines 358-531): resolve the branch ref, read the tip
commit, fetch its recursive tree, create the filtered tree, create a commit
on the old tip, and only then PATCH the branch ref; every step checks the
response and returns an error response without proceeding further. -/
def deleteDirHandler (path branchName : String) (env : GitEnv) :
    DeleteResponse × GitEnv × List (Call × Bool) :=
  let fail1 := env.fails.getD env.k false
  let env1 : GitEnv := { env with k := env.k + 1 }
  if fail1 then
    (.err "get ref failed", env1, [((Call.getRef branchName : Call), false)])
  else
    let currentCommitSha := env1.branchSha
    let fail2 := env1.fails.getD env1.k false
    let env2 : GitEnv := { env1 with k := env1.k + 1 }
    match lookupBy env2.commits currentCommitSha with
    | none =>
      (.err "get commit failed", env2,
        [((Call.getRef branchName : Call), true),
         ((Call.getCommit currentCommitSha : Call), false)])
    | some baseTreeSha =>
      if fail2 then
        (.err "get commit failed", env2,
          [((Call.getRef branchName : Call), true),
           ((Call.getCommit currentCommitSha : Call), false)])
      else
        let fail3 := env2.fails.getD env2.k false
        let env3 : GitEnv := { env2 with k := env2.k + 1 }
        match lookupBy env3.trees baseTreeSha with
        | none =>
          (.err "get tree failed", env3,
            [((Call.getRef branchName : Call), true),
             ((Call.getCommit currentCommitSha : Call), true),
             ((Call.getTree baseTreeSha : Call), false)])
        | some treeData =>
          if fail3 then
            (.err "get tree failed", env3,
              [((Call.getRef branchName : Call), true),
               ((Call.getCommit currentCommitSha : Call), true),
               ((Call.getTree baseTreeSha : Call), false)])
          else
            let newTree := buildNewTree path treeData
            let fail4 := env3.fails.getD env3.k false
            let env4 : GitEnv := { env3 with k := env3.k + 1 }
            if fail4 then
              (.err "Failed to create new tree", env4,
                [((Call.getRef branchName : Call), true),
                 ((Call.getCommit currentCommitSha : Call), true),
                 ((Call.getTree baseTreeSha : Call), true),
                 ((Call.postTree newTree : Call), false)])
            else
              let fail5 := env4.fails.getD env4.k false
              let env5 : GitEnv := { env4 with k := env4.k + 1 }
              if fail5 then
                (.err "Failed to create commit", env5,
                  [((Call.getRef branchName : Call), true),
                   ((Call.getCommit currentCommitSha : Call), true),
                   ((Call.getTree baseTreeSha : Call), true),
                   ((Call.postTree newTree : Call), true),
                   ((Call.postCommit createdTreeSha currentCommitSha : Call), false)])
              else
                let fail6 := env5.fails.getD env5.k false
                let env6 : GitEnv := { env5 with k := env5.k + 1 }
                if fail6 then
                  (.err "Failed to update branch", env6,
                    [((Call.getRef branchName : Call), true),
                     ((Call.getCommit currentCommitSha : Call), true),
                     ((Call.getTree baseTreeSha : Call), true),
                     ((Call.postTree newTree : Call), true),
                     ((Call.postCommit createdTreeSha currentCommitSha : Call), true),
                     ((Call.patchRef branchName createdCommitSha : Call), false)])
                else
                  (.ok, { env6 with branchSha := createdCommitSha },
                    [((Call.getRef branchName : Call), true),
                     ((Call.getCommit currentCommitSha : Call), true),
                     ((Call.getTree baseTreeSha : Call), true),
                     ((Call.postTree newTree : Call), true),
                     ((Call.postCommit createdTreeSha currentCommitSha : Call), true),
                     ((Call.patchRef branchName createdCommitSha : Call), true)])

/-- The calls of the delete sequence that precede the branch-ref update. -/
def isPreUpdateCall : Call → Bool
  | .getRef _ => true
  | .getCommit _ => true
  | .getTree _ => true
  | .postTree _ => true
  | .postCommit _ _ => true
  | _ => false

/-- C5: if any of the first five steps of the directory delete — resolve
branch tip, get commit, fetch the recursive tree, create the new tree,
create the new commit — fails (a non-ok response for one of those calls is
in the trace), then no branch-ref update call is issued at all and the
branch still points at its original commit. -/
theorem deleteDir_early_fail_leaves_branch
    (path branchName : String) (env : GitEnv) (c : Call)
    (hc : isPreUpdateCall c = true)
    (h : (c, false) ∈ (deleteDirHandler path branchName env).2.2) :
    (∀ sha : String, ∀ b : Bool,
        ((Call.patchRef branchName sha : Call), b) ∉ (deleteDirHandler path branchName env).2.2)
    ∧ (deleteDirHandler path branchName env).2.1.branchSha = env.branchSha := by
  simp only [deleteDirHandler] at h ⊢
  by_cases h1 : env.fails.getD env.k false = true
  · rw [if_pos h1] at h ⊢
    exact ⟨fun sha b hmem => by simp at hmem, rfl⟩
  · rw [if_neg h1] at h ⊢
    rcases hc2 : lookupBy env.commits env.branchSha with _ | baseTreeSha <;> rw [hc2] at h <;> dsimp only at h ⊢
    · exact ⟨fun sha b hmem => by simp at hmem, rfl⟩
    · by_cases h2 : env.fails.getD (env.k + 1) false = true
      · rw [if_pos h2] at h ⊢
        exact ⟨fun sha b hmem => by simp at hmem, rfl⟩
      · rw [if_neg h2] at h ⊢
        rcases hc3 : lookupBy env.trees baseTreeSha with _ | treeData <;> rw [hc3] at h <;> dsimp only at h ⊢
        · exact ⟨fun sha b hmem => by simp at hmem, rfl⟩
        · by_cases h3 : env.fails.getD (env.k + 1 + 1) false = true
          · rw [if_pos h3] at h ⊢
            exact ⟨fun sha b hmem => by simp at hmem, rfl⟩
          · rw [if_neg h3] at h ⊢
            by_cases h4 : env.fails.getD (env.k + 1 + 1 + 1) false = true
            · rw [if_pos h4] at h ⊢
              exact ⟨fun sha b hmem => by simp at hmem, rfl⟩
            · rw [if_neg h4] at h ⊢
              by_cases h5 : env.fails.getD (env.k + 1 + 1 + 1 + 1) false = true
              · rw [if_pos h5] at h ⊢
                exact ⟨fun sha b hmem => by simp at hmem, rfl⟩
              · rw [if_neg h5] at h ⊢
                by_cases h6 : env.fails.getD (env.k + 1 + 1 + 1 + 1 + 1) false = true
                · rw [if_pos h6] at h ⊢
                  simp at h
                  subst h
                  simp [isPreUpdateCall] at hc
                · rw [if_neg h6] at h ⊢
                  simp at h

theorem deleteDir_early_fail_leaves_branch_witness :
    (isPreUpdateCall (Call.getTree "t0") = true
     ∧ ((Call.getTree "t0" : Call), false)
         ∈ (deleteDirHandler "docs/old" "main"
             { branchSha := "c0", commits := [("c0", "t0")], trees := [("t0", [])],
               fails := [false, false, true], k := 0 }).2.2)
    ∧ ((∀ sha : String, ∀ b : Bool,
          ((Call.patchRef "main" sha : Call), b)
            ∉ (deleteDirHandler "docs/old" "main"
                { branchSha := "c0", commits := [("c0", "t0")], trees := [("t0", [])],
                  fails := [false, false, true], k := 0 }).2.2)
       ∧ (deleteDirHandler "docs/old" "main"
            { branchSha := "c0", commits := [("c0", "t0")], trees := [("t0", [])],
              fails := [false, false, true], k := 0 }).2.1.branchSha
           = ("c0" : String)) :=
  ⟨⟨rfl, by decide⟩,
   deleteDir_early_fail_leaves_branch "docs/old" "main"
     { branchSha := "c0", commits := [("c0", "t0")], trees := [("t0", [])],
       fails := [false, false, true], k := 0 } (Call.getTree "t0") rfl (by decide)⟩

/-- C6 amended: the tree submitted by directory delete contains exactly the
blob entries of the old recursive listing whose path is neither equal to the
deleted path nor starts with the deleted path with a slash appended — where
the slash is appended only when the path does not already end in one — and
each retained entry is kept verbatim (path, mode, type and content id
unchanged). -/
theorem buildNewTree_mem (path : String) (treeItems : List TreeItem) (e : TreeItem) :
    e ∈ buildNewTree path treeItems ↔
      (e ∈ treeItems ∧ e.type = "blob" ∧ ¬ e.path = path ∧
        jsStartsWith e.path (if endsWithSlash path then path else path ++ "/") = false) := by
  unfold buildNewTree
  have hmapid : ∀ l : List TreeItem,
      l.map (fun item => (⟨item.path, item.mode, item.type, item.sha⟩ : TreeItem)) = l := by
    intro l
    induction l with
    | nil => rfl
    | cons a as ih =>
      cases a
      simp [ih]
  rw [hmapid]
  simp only [List.mem_filter, Bool.not_eq_eq_eq_not, Bool.not_true, Bool.or_eq_false_iff,
    beq_iff_eq, beq_eq_false_iff_ne, ne_eq]
  constructor
  · rintro ⟨⟨hmem, hpref, hpath⟩, hblob⟩
    exact ⟨hmem, hblob, hpath, hpref⟩
  · rintro ⟨hmem, hblob, hpath, hpref⟩
    exact ⟨⟨hmem, hpref, hpath⟩, hblob⟩

/-- C6 counterexample: for the deleted path `d/` (a trailing-slash path the
input schema accepts), the listing entry `d/a.md` is a blob whose path is not
`d/` and does not start with `d/` + `/` = `d//`, so the claim as stated says
it is retained; the code normalizes the prefix to `d/` and drops it. -/
theorem buildNewTree_trailing_slash_cex :
    ¬ ((⟨"d/a.md", "100644", "blob", "s"⟩ : TreeItem)
        ∈ buildNewTree "d/" [⟨"d/a.md", "100644", "blob", "s"⟩])
    ∧ ((⟨"d/a.md", "100644", "blob", "s"⟩ : TreeItem)
        ∈ [(⟨"d/a.md", "100644", "blob", "s"⟩ : TreeItem)]
       ∧ ("blob" : String) = "blob"
       ∧ ¬ ("d/a.md" : String) = "d/"
       ∧ jsStartsWith "d/a.md" ("d/" ++ "/") = false) := by
  decide
